import Mathlib

/-!
# A verification of the gomatch JSON pattern-matching engine

This development embeds the core of the `gomatch` library in Lean: the decoded
JSON value model, the `ValueMatcher` capability, the primitive and chain
matchers, and the recursive deep-match engine with its path accumulation and
error taxonomy, following `json_matcher.go` and `chain_matcher.go`.

JSON text decoding (`encoding/json`) is an external collaborator: the top-level
match operation here takes `Option Json` arguments standing for the outcome of
the external decoder (`none` = decode error).  The unchecked type casts inside
`deepMatch` are made explicit through a `crash` outcome, so that panic-freedom
can be stated and proved.
-/

namespace Gomatch

/-- A decoded JSON value: null, bool, number (64-bit float semantics, modelled
as `Rat`), string, array, or object.  Objects are association lists in
decode order; the Go decoder produces maps with unique keys. -/
inductive Json where
  | null : Json
  | bool (b : Bool) : Json
  | num (q : Rat) : Json
  | str (s : String) : Json
  | arr (elems : List Json) : Json
  | obj (fields : List (String × Json)) : Json
  deriving Repr

/-- The runtime kind of a decoded value, standing for `reflect.TypeOf` on the
six interface types the decoder produces. -/
inductive JKind where
  | knull | kbool | knum | kstr | karr | kobj
  deriving Repr, DecidableEq

def Json.kind : Json → JKind
  | .null => .knull
  | .bool _ => .kbool
  | .num _ => .knum
  | .str _ => .kstr
  | .arr _ => .karr
  | .obj _ => .kobj

mutual

/-- Structural equality of decoded values, standing for Go `interface{}`
equality on comparable values. -/
def Json.beq (a b : Json) : Bool :=
  match a, b with
  | .bool x, .bool y => x == y
  | .num x, .num y => x == y
  | .str x, .str y => x == y
  | .arr u, .arr w => Json.beqList u w
  | .obj u, .obj w => Json.beqFields u w
  | .null, .null => true
  | _, _ => false

def Json.beqList (u w : List Json) : Bool :=
  match u, w with
  | a :: u₂, b :: w₂ => Json.beq a b && Json.beqList u₂ w₂
  | [], [] => true
  | _, _ => false

def Json.beqFields (u w : List (String × Json)) : Bool :=
  match u, w with
  | (ka, va) :: u₂, (kb, vb) :: w₂ => ka == kb && Json.beq va vb && Json.beqFields u₂ w₂
  | [], [] => true
  | _, _ => false

end

/-- True on the scalar kinds (null, bool, number, string): the values the
`default` branch of the `switch` in `deepMatch` handles. -/
def Json.isScalar : Json → Bool
  | .arr _ => false
  | .obj _ => false
  | _ => true

mutual

/-- Well-formedness of a decoded value: every object has pairwise distinct
keys, as `encoding/json` guarantees for the maps it produces. -/
def Json.wf : Json → Bool
  | .null => true
  | .bool _ => true
  | .num _ => true
  | .str _ => true
  | .arr xs => Json.wfList xs
  | .obj kvs => Json.wfFields kvs && (kvs.map Prod.fst).Nodup

def Json.wfList : List Json → Bool
  | [] => true
  | x :: xs => Json.wf x && Json.wfList xs

def Json.wfFields : List (String × Json) → Bool
  | [] => true
  | (_, v) :: rest => Json.wf v && Json.wfFields rest

end

mutual

/-- `Json.allSub p v`: the predicate `p` holds on `v` and on every value
nested inside it (array elements and object field values). -/
def Json.allSub (p : Json → Bool) : Json → Bool
  | .arr xs => p (.arr xs) && Json.allSubList p xs
  | .obj kvs => p (.obj kvs) && Json.allSubFields p kvs
  | v => p v

def Json.allSubList (p : Json → Bool) : List Json → Bool
  | [] => true
  | x :: xs => Json.allSub p x && Json.allSubList p xs

def Json.allSubFields (p : Json → Bool) : List (String × Json) → Bool
  | [] => true
  | (_, v) :: rest => Json.allSub p v && Json.allSubFields p rest

end

/-- The closed taxonomy of terminal errors (`errors.New` values and the one
`fmt.Errorf` shape in `deepMatchMap`), compared by kind.  `custom` stands for
an error produced by a user-supplied `ValueMatcher` outside the fixed set. -/
inductive MatchErr where
  | typesNotEqual
  | valuesNotEqual
  | arraysLenNotEqual
  | unexpectedKey
  | expectedKey (k : String)
  | matcherNotFound
  | notString
  | notNumber
  | notBool
  | notArray
  | notUUID
  | notEmail
  | custom (msg : String)
  deriving Repr, DecidableEq

/-- The `Error()` message of each terminal error, as written in the source. -/
def MatchErr.message : MatchErr → String
  | .typesNotEqual => "types are not equal"
  | .valuesNotEqual => "values are not equal"
  | .arraysLenNotEqual => "arrays sizes are not equal"
  | .unexpectedKey => "unexpected key"
  | .expectedKey k => "expected key \"" ++ k ++ "\""
  | .matcherNotFound => "none of matchers could be used"
  | .notString => "expected string"
  | .notNumber => "expected number"
  | .notBool => "expected bool"
  | .notArray => "expected array"
  | .notUUID => "expected UUID"
  | .notEmail => "expected email"
  | .custom msg => msg

/-- The `ValueMatcher` interface: recognition of a pattern and verification of
an actual value.  `Match` returns a boolean together with an optional error
(`none` standing for Go's nil error). -/
structure ValueMatcher where
  CanMatch : Json → Bool
  Match : Json → Json → Bool × Option MatchErr

/-- One path segment, as pushed into the `[]interface{}` path: an array index
(Go `int`, always a valid index here) or an object key. -/
inductive Seg where
  | idx (i : Nat)
  | key (k : String)
  deriving Repr, DecidableEq

/-- Outcome of one engine frame: success, failure with an accumulated path and
a terminal error, or a run-time panic of the unchecked type casts in
`deepMatch`. -/
inductive DeepResult where
  | ok
  | fail (path : List Seg) (e : MatchErr)
  | crash
  deriving Repr, DecidableEq

/-- How the element loop of `deepMatchArray` ends: it ran off its range (all
expected elements consumed, or the `i == len(actual)` break was hit), it broke
on the unbounded sentinel, or a recursive call failed or panicked. -/
inductive ArrLoopOut where
  | finished
  | unbounded
  | failed (path : List Seg) (e : MatchErr)
  | crashed
  deriving Repr, DecidableEq

/-- How the key loop of `deepMatchMap` ends: all expected entries processed
(carrying the unbounded flag), or a missing key / recursive failure / panic. -/
inductive MapLoopOut where
  | finished (unb : Bool)
  | failed (path : List Seg) (e : MatchErr)
  | crashed
  deriving Repr, DecidableEq

def patternString : String := "@string@"
def patternNumber : String := "@number@"
def patternBool : String := "@bool@"
def patternArray : String := "@array@"
def patternUUID : String := "@uuid@"
def patternEmail : String := "@email@"
def patternWildcard : String := "@wildcard@"
def patternUnbounded : String := "@...@"

/-- `isPattern`: true iff `p` is a string equal to `pattern`. -/
def isPattern (p : Json) (pattern : String) : Bool :=
  match p with
  | .str ps => ps = pattern
  | _ => false

/-- `isUnbounded`: true iff `p` is the string `"@...@"`. -/
def isUnbounded (p : Json) : Bool := isPattern p patternUnbounded

/-- Go map indexing `actual[k]` on the association-list image of the map. -/
def lookupKey (k : String) : List (String × Json) → Option Json
  | [] => none
  | (k₂, v) :: rest => if k = k₂ then some v else lookupKey k rest

/-- The scalar step `matchValue`: if the configured matcher recognizes the
expected value, delegate to it and keep only its error (the boolean is
discarded); otherwise require equality, failing with `errValuesNotEqual`. -/
def matchValue (m : ValueMatcher) (expected actual : Json) : DeepResult :=
  if m.CanMatch expected then
    match (m.Match expected actual).2 with
    | some e => .fail [] e
    | none => .ok
  else if Json.beq expected actual then .ok
  else .fail [] .valuesNotEqual

mutual

/-- The engine dispatch `deepMatch`: the type guard (`reflect.TypeOf`
disagreement with an unrecognized expected value fails with
`errTypesNotEqual`), then dispatch on the expected value's type.  The casts of
`actual` in the array and map branches are unchecked in the source; here they
surface as `crash` when `actual` has a different type. -/
def deepMatch (m : ValueMatcher) (expected actual : Json) : DeepResult :=
  if expected.kind ≠ actual.kind ∧ ¬ m.CanMatch expected then .fail [] .typesNotEqual
  else
    match expected, actual with
    | .arr xs, .arr ys => deepMatchArray m xs ys
    | .arr _, _ => .crash
    | .obj kvs, .obj kvs₂ => deepMatchMap m kvs kvs₂
    | .obj _, _ => .crash
    | _, _ => matchValue m expected actual

/-- `deepMatchArray`: run the element loop; on normal exit, enforce the exact
length check unless the unbounded sentinel was reached. -/
def deepMatchArray (m : ValueMatcher) (xs ys : List Json) : DeepResult :=
  match arrLoop m xs ys 0 with
  | .failed p e => .fail p e
  | .crashed => .crash
  | .unbounded => .ok
  | .finished => if xs.length ≠ ys.length then .fail [] .arraysLenNotEqual else .ok

/-- The `for i, v := range expected` loop of `deepMatchArray`, walking the
remaining actual elements in lockstep with the index `i`, so that an empty
remainder is exactly the `i == len(actual)` break.  On the unbounded sentinel
the loop breaks before that test.  A recursive failure appends the index `i`
to the returned path. -/
def arrLoop (m : ValueMatcher) : List Json → List Json → Nat → ArrLoopOut
  | [], _, _ => .finished
  | v :: rest, ys, i =>
    if isUnbounded v then .unbounded
    else
      match ys with
      | [] => .finished
      | y :: ys₂ =>
        match deepMatch m v y with
        | .ok => arrLoop m rest ys₂ (i + 1)
        | .fail p e => .failed (p ++ [Seg.idx i]) e
        | .crash => .crashed

/-- `deepMatchMap`: run the key loop over the expected entries; on normal exit
enforce the exact key-count check unless the unbounded key was seen. -/
def deepMatchMap (m : ValueMatcher) (kvs kvs₂ : List (String × Json)) : DeepResult :=
  match mapLoop m kvs₂ kvs false with
  | .failed p e => .fail p e
  | .crashed => .crash
  | .finished unb => if ¬ unb ∧ kvs.length ≠ kvs₂.length then .fail [] .unexpectedKey else .ok

/-- The `for k, v1 := range expected` loop of `deepMatchMap`: the unbounded
key sets the flag and is skipped (its value never inspected); any other key
must be present in the actual map, else the missing-key error; a recursive
failure appends the key to the returned path.  Go map iteration order is
unspecified; the association list fixes one order, which is the only
determinization made here. -/
def mapLoop (m : ValueMatcher) (actual : List (String × Json)) :
    List (String × Json) → Bool → MapLoopOut
  | [], unb => .finished unb
  | (k, v₁) :: rest, unb =>
    if isUnbounded (.str k) then mapLoop m actual rest true
    else
      match lookupKey k actual with
      | none => .failed [] (.expectedKey k)
      | some v₂ =>
        match deepMatch m v₁ v₂ with
        | .ok => mapLoop m actual rest unb
        | .fail p e => .failed (p ++ [Seg.key k]) e
        | .crash => .crashed

end

/-- One step of the `pathToString` loop body: an `int` segment is written as
`[N]` with no separator; any other segment is a key, preceded by `.` when the
buffer is non-empty. -/
def pathSegWrite (b : String) : Seg → String
  | .idx n => b ++ "[" ++ toString n ++ "]"
  | .key s => (if b.length > 0 then b ++ "." else b) ++ s

/-- `pathToString` walks the accumulated path from its last element (the
outermost segment) down to the first, building the rendered locator. -/
def pathToString (path : List Seg) : String :=
  path.reverse.foldl pathSegWrite ""

/-- A `JSONMatcher` wraps one configured `ValueMatcher`. -/
structure JSONMatcher where
  valueMatcher : ValueMatcher

/-- `NewJSONMatcher` creates a `JSONMatcher` with the given value matcher. -/
def NewJSONMatcher (matcher : ValueMatcher) : JSONMatcher := ⟨matcher⟩

/-- The top-level `Match`.  JSON text decoding (`json.Unmarshal`) is an
external collaborator, so the two documents arrive as `Option Json` (`none` =
the decoder returned an error).  The result models Go's `(bool, error)` with
the error rendered to its message string; the outer `none` stands for a panic
escaping the engine. -/
def JSONMatcher.Match (m : JSONMatcher) (expectedJSON actualJSON : Option Json) :
    Option (Bool × Option String) :=
  match expectedJSON with
  | none => some (false, some "invalid JSON pattern")
  | some expected =>
    match actualJSON with
    | none => some (false, some "invalid JSON")
    | some actual =>
      match deepMatch m.valueMatcher expected actual with
      | .ok => some (true, none)
      | .fail path e =>
        if path.length > 0 then
          some (false, some (e.message ++ " at path: " ++ pathToString path))
        else
          some (false, some e.message)
      | .crash => none

/-- `StringMatcher`: accepts any string actual value. -/
def NewStringMatcher (pattern : String) : ValueMatcher :=
  { CanMatch := fun p => isPattern p pattern
    Match := fun _ v =>
      match v with
      | .str _ => (true, none)
      | _ => (false, some .notString) }

/-- `NumberMatcher`: accepts any `float64` actual value. -/
def NewNumberMatcher (pattern : String) : ValueMatcher :=
  { CanMatch := fun p => isPattern p pattern
    Match := fun _ v =>
      match v with
      | .num _ => (true, none)
      | _ => (false, some .notNumber) }

/-- `BoolMatcher`: accepts any boolean actual value. -/
def NewBoolMatcher (pattern : String) : ValueMatcher :=
  { CanMatch := fun p => isPattern p pattern
    Match := fun _ v =>
      match v with
      | .bool _ => (true, none)
      | _ => (false, some .notBool) }

/-- `ArrayMatcher`: accepts any `[]interface{}` actual value. -/
def NewArrayMatcher (pattern : String) : ValueMatcher :=
  { CanMatch := fun p => isPattern p pattern
    Match := fun _ v =>
      match v with
      | .arr _ => (true, none)
      | _ => (false, some .notArray) }

def isHexDigit (c : Char) : Bool :=
  c.isDigit || (Char.ofNat 97 ≤ c && c ≤ Char.ofNat 102) || ('A' ≤ c && c ≤ 'F')

/-- Modelled from the spec: `uuid.Parse` of the external `github.com/google/uuid`
dependency is not part of this repository; the spec requires "a string
parseable as a UUID (any RFC-4122 textual form accepted by a standard UUID
parser)", modelled here as the canonical hyphenated textual form. -/
def uuidParseOk (s : String) : Bool :=
  let cs := s.toList
  cs.length = 36 &&
    (List.range 36).all fun i =>
      if i = 8 || i = 13 || i = 18 || i = 23 then cs.getD i ' ' = '-'
      else isHexDigit (cs.getD i ' ')

/-- `UUIDMatcher`: accepts a string that parses as a UUID. -/
def NewUUIDMatcher (pattern : String) : ValueMatcher :=
  { CanMatch := fun p => isPattern p pattern
    Match := fun _ v =>
      match v with
      | .str s => if uuidParseOk s then (true, none) else (false, some .notUUID)
      | _ => (false, some .notUUID) }

def isAlnum (c : Char) : Bool := c.isDigit || c.isAlpha

/-- The punctuation allowed in an email local part by `emailRe`; the
apostrophe, backtick and braces are written via their code points. -/
def emailLocalPunct : List Char :=
  ['.', '!', '#', '$', '%', '&', '*', '+', '/', '=', '?', '^', '_', '~', '-', '|',
   Char.ofNat 39, Char.ofNat 96, Char.ofNat 123, Char.ofNat 125]

def isEmailLocalChar (c : Char) : Bool := isAlnum c || emailLocalPunct.contains c

/-- One domain label of `emailRe`: a leading alphanumeric, optionally followed
by up to 61 alphanumerics/hyphens and a final alphanumeric. -/
def emailLabelOk (l : List Char) : Bool :=
  decide (1 ≤ l.length) && decide (l.length ≤ 63) &&
    (match l.head? with | some c => isAlnum c | none => false) &&
    (match l.getLast? with | some c => isAlnum c | none => false) &&
    l.all fun c => isAlnum c || c = '-'

/-- Modelled from the spec: Go's `regexp` engine is external to this
repository; this implements the anchored email grammar of `emailRe` in
`email_matcher.go` — a non-empty local part of allowed characters, `@`, and a
domain of dot-separated labels. -/
def emailReOk (s : String) : Bool :=
  match s.splitOn "@" with
  | [localPart, domain] =>
    decide (1 ≤ localPart.length) && localPart.toList.all isEmailLocalChar &&
      (domain.splitOn ".").all fun l => emailLabelOk l.toList
  | _ => false

/-- `EmailMatcher`: accepts a string matching the email grammar. -/
def NewEmailMatcher (pattern : String) : ValueMatcher :=
  { CanMatch := fun p => isPattern p pattern
    Match := fun _ v =>
      match v with
      | .str s => if emailReOk s then (true, none) else (false, some .notEmail)
      | _ => (false, some .notEmail) }

/-- `WildcardMatcher`: accepts any actual value. -/
def NewWildcardMatcher (pattern : String) : ValueMatcher :=
  { CanMatch := fun p => isPattern p pattern
    Match := fun _ _ => (true, none) }

/-- `ChainMatcher.CanMatch`: true iff any constituent matcher recognizes `p`,
short-circuiting on the first true. -/
def ChainMatcher.CanMatch (matchers : List ValueMatcher) (p : Json) : Bool :=
  match matchers with
  | [] => false
  | m :: rest => if m.CanMatch p then true else ChainMatcher.CanMatch rest p

/-- `ChainMatcher.Match`: delegate to the first constituent whose `CanMatch`
holds; when none does, fail with `errMatcherNotFound`. -/
def ChainMatcher.Match (matchers : List ValueMatcher) (p v : Json) : Bool × Option MatchErr :=
  match matchers with
  | [] => (false, some .matcherNotFound)
  | m :: rest => if m.CanMatch p then m.Match p v else ChainMatcher.Match rest p v

/-- `NewChainMatcher` packages a list of matchers as one `ValueMatcher`. -/
def NewChainMatcher (matchers : List ValueMatcher) : ValueMatcher :=
  ⟨ChainMatcher.CanMatch matchers, ChainMatcher.Match matchers⟩

/-- `NewDefaultJSONMatcher`: the default chain of the seven built-in value
matchers, in source order. -/
def NewDefaultJSONMatcher : JSONMatcher :=
  NewJSONMatcher
    (NewChainMatcher
      [NewStringMatcher patternString,
       NewNumberMatcher patternNumber,
       NewBoolMatcher patternBool,
       NewArrayMatcher patternArray,
       NewUUIDMatcher patternUUID,
       NewEmailMatcher patternEmail,
       NewWildcardMatcher patternWildcard])

/-- A custom `ValueMatcher` that recognizes every expected value and reports
"matched" via the error slot while returning `false`: used to exercise the
engine's contract that only the error value is consulted, and that a
`CanMatch` accepting non-strings defeats the cast-safety argument. -/
def alwaysNilMatcher : ValueMatcher :=
  ⟨fun _ => true, fun _ _ => (false, none)⟩

/-- A custom `ValueMatcher` that recognizes every expected value and returns
`true` together with a non-nil error. -/
def alwaysErrMatcher : ValueMatcher :=
  ⟨fun _ => true, fun _ _ => (true, some (.custom "boom"))⟩

/-- The errors the engine can produce on its own, or an error handed back by
the configured matcher's `Match` after its `CanMatch` accepted the expected
value.  Every failure of `deepMatch` carries an error of this shape; in
particular the chain-exhaustion error can only arise through the second
disjunct. -/
def ErrFrom (m : ValueMatcher) (err : MatchErr) : Prop :=
  err = .typesNotEqual ∨ err = .valuesNotEqual ∨ err = .arraysLenNotEqual ∨
    err = .unexpectedKey ∨ (∃ k, err = .expectedKey k) ∨
    (∃ p v, m.CanMatch p = true ∧ (m.Match p v).2 = some err)

mutual

theorem Json.beq_iff_eq (a b : Json) : Json.beq a b = true ↔ a = b := by
  cases a <;> cases b <;> (try (simp [Json.beq]; done))
  · rename_i x y
    simpa [Json.beq] using Json.beqList_iff_eq x y
  · rename_i x y
    simpa [Json.beq] using Json.beqFields_iff_eq x y

theorem Json.beqList_iff_eq (xs ys : List Json) : Json.beqList xs ys = true ↔ xs = ys := by
  cases xs <;> cases ys <;> (try (simp [Json.beqList]; done))
  rename_i x xs₂ y ys₂
  simp [Json.beqList, Json.beq_iff_eq x y, Json.beqList_iff_eq xs₂ ys₂]

theorem Json.beqFields_iff_eq (xs ys : List (String × Json)) :
    Json.beqFields xs ys = true ↔ xs = ys := by
  cases xs <;> cases ys <;> (try (simp [Json.beqFields]; done))
  rename_i kv₁ xs₂ kv₂ ys₂
  obtain ⟨k₁, v₁⟩ := kv₁
  obtain ⟨k₂, v₂⟩ := kv₂
  simp [Json.beqFields, Json.beq_iff_eq v₁ v₂, Json.beqFields_iff_eq xs₂ ys₂]

end

theorem Json.beq_refl (a : Json) : Json.beq a a = true := (Json.beq_iff_eq a a).2 rfl

theorem deepMatch_guard_fail (m : ValueMatcher) (e a : Json)
    (h₁ : e.kind ≠ a.kind) (h₂ : m.CanMatch e = false) :
    deepMatch m e a = .fail [] .typesNotEqual := by
  have hc : e.kind ≠ a.kind ∧ ¬m.CanMatch e = true := ⟨h₁, by simp [h₂]⟩
  rw [deepMatch.eq_def, if_pos hc]

theorem deepMatch_scalar (m : ValueMatcher) (e a : Json) (hs : e.isScalar = true)
    (hg : e.kind = a.kind ∨ m.CanMatch e = true) :
    deepMatch m e a = matchValue m e a := by
  have hc : ¬(e.kind ≠ a.kind ∧ ¬m.CanMatch e = true) := by
    rcases hg with h | h
    · simp [h]
    · simp [h]
  rw [deepMatch.eq_def, if_neg hc]
  cases e with
  | arr xs => simp [Json.isScalar] at hs
  | obj kvs => simp [Json.isScalar] at hs
  | null => rfl
  | bool b => rfl
  | num q => rfl
  | str s => rfl

theorem deepMatch_arr (m : ValueMatcher) (xs ys : List Json) :
    deepMatch m (.arr xs) (.arr ys) = deepMatchArray m xs ys := by
  rw [deepMatch.eq_def]
  simp [Json.kind]

theorem deepMatch_obj (m : ValueMatcher) (kvs kvs₂ : List (String × Json)) :
    deepMatch m (.obj kvs) (.obj kvs₂) = deepMatchMap m kvs kvs₂ := by
  rw [deepMatch.eq_def]
  simp [Json.kind]

/-- C6: `JSONMatcher.Match` decodes the expected text first: a pattern decode
failure yields failure with exactly "invalid JSON pattern"; otherwise a decode
failure of the actual text yields exactly "invalid JSON"; in both cases no
comparison runs and no path suffix is attached, and when both texts are
malformed the pattern error is the one returned. -/
theorem match_decode_failures :
    (∀ (m : JSONMatcher) (a : Option Json),
        m.Match none a = some (false, some "invalid JSON pattern")) ∧
    (∀ (m : JSONMatcher) (e : Json),
        m.Match (some e) none = some (false, some "invalid JSON")) ∧
    (∀ m : JSONMatcher, m.Match none none = some (false, some "invalid JSON pattern")) :=
  ⟨fun _ _ => rfl, fun _ _ => rfl, fun _ => rfl⟩

/-- C7: `ChainMatcher.CanMatch` is true iff some constituent's `CanMatch` is
true; `ChainMatcher.Match` delegates to the first constituent recognizing the
pattern and returns its result unchanged; when no constituent recognizes the
pattern it returns `false` with the distinct "none of matchers could be used"
error. -/
theorem chainMatcher_first_match_wins :
    (∀ (ms : List ValueMatcher) (p : Json),
        ChainMatcher.CanMatch ms p = true ↔ ∃ m ∈ ms, m.CanMatch p = true) ∧
    (∀ (pre : List ValueMatcher) (m : ValueMatcher) (rest : List ValueMatcher) (p v : Json),
        (∀ m₂ ∈ pre, m₂.CanMatch p = false) → m.CanMatch p = true →
        ChainMatcher.Match (pre ++ m :: rest) p v = m.Match p v) ∧
    (∀ (ms : List ValueMatcher) (p v : Json),
        (∀ m₂ ∈ ms, m₂.CanMatch p = false) →
        ChainMatcher.Match ms p v = (false, some .matcherNotFound)) := by
  refine ⟨?_, ?_, ?_⟩
  · intro ms p
    induction ms with
    | nil => simp [ChainMatcher.CanMatch]
    | cons m rest ih =>
      by_cases h : m.CanMatch p <;> simp [ChainMatcher.CanMatch, h, ih]
  · intro pre m rest p v hpre hm
    induction pre with
    | nil => simp [ChainMatcher.Match, hm]
    | cons m₂ pre₂ ih =>
      have h₂ := hpre m₂ (by simp)
      rw [List.cons_append, ChainMatcher.Match]
      simp only [h₂]
      exact ih fun m₃ hm₃ => hpre m₃ (by simp [hm₃])
  · intro ms p v h
    induction ms with
    | nil => rfl
    | cons m rest ih =>
      have hm := h m (by simp)
      rw [ChainMatcher.Match]
      simp only [hm]
      exact ih fun m₂ h₂ => h m₂ (by simp [h₂])

/-- Witness for C7 at a concrete two-element chain: recognition by the second
matcher, delegation to it, and chain exhaustion on an unknown token. -/
theorem chainMatcher_first_match_wins_witness :
    ChainMatcher.CanMatch [NewStringMatcher patternString, NewNumberMatcher patternNumber]
        (.str "@number@") = true ∧
    ChainMatcher.Match [NewStringMatcher patternString, NewNumberMatcher patternNumber]
        (.str "@number@") (.num 3) =
      (NewNumberMatcher patternNumber).Match (.str "@number@") (.num 3) ∧
    ChainMatcher.Match [NewStringMatcher patternString] (.str "@unknown@") (.num 3) =
      (false, some .matcherNotFound) := by
  refine ⟨?_, ?_, ?_⟩
  · exact (chainMatcher_first_match_wins.1 _ _).2
      ⟨NewNumberMatcher patternNumber, by simp, by decide⟩
  · exact chainMatcher_first_match_wins.2.1 [NewStringMatcher patternString] _ [] _ _
      (by intro m₂ h; simp at h; subst h; decide) (by decide)
  · exact chainMatcher_first_match_wins.2.2 _ _ _
      (by intro m₂ h; simp at h; subst h; decide)

/-- C3: when the expected and actual values have different runtime kinds and
the configured matcher does not recognize the expected value, `deepMatch`
fails immediately with "types are not equal" and an empty path at this level;
when the matcher does recognize it, the kind difference alone does not take
that branch — evaluation proceeds to the type dispatch (the scalar comparison,
or the unchecked cast for containers). -/
theorem deepMatch_kind_mismatch :
    (∀ (m : ValueMatcher) (e a : Json), e.kind ≠ a.kind → m.CanMatch e = false →
        deepMatch m e a = .fail [] .typesNotEqual) ∧
    (∀ (m : ValueMatcher) (e a : Json), e.kind ≠ a.kind → m.CanMatch e = true →
        deepMatch m e a = (if e.isScalar then matchValue m e a else .crash)) := by
  constructor
  · exact deepMatch_guard_fail
  · intro m e a hk hc
    cases e with
    | arr xs =>
      rw [deepMatch.eq_def, if_neg (by simp [hc])]
      cases a <;> first
        | rfl
        | (exact absurd rfl hk)
    | obj kvs =>
      rw [deepMatch.eq_def, if_neg (by simp [hc])]
      cases a <;> first
        | rfl
        | (exact absurd rfl hk)
    | null => rw [deepMatch_scalar m _ a (by rfl) (Or.inr hc)]; rfl
    | bool b => rw [deepMatch_scalar m _ a (by rfl) (Or.inr hc)]; rfl
    | num q => rw [deepMatch_scalar m _ a (by rfl) (Or.inr hc)]; rfl
    | str s => rw [deepMatch_scalar m _ a (by rfl) (Or.inr hc)]; rfl

/-- Witness for C3 at concrete inputs: an object against a number with a
matcher that recognizes nothing fails with the bare type error; a recognized
placeholder string against a number is not failed by the kind difference but
handed to the scalar step. -/
theorem deepMatch_kind_mismatch_witness :
    deepMatch (NewChainMatcher []) (.obj []) (.num 3) = .fail [] .typesNotEqual ∧
    deepMatch (NewDefaultJSONMatcher.valueMatcher) (.str "@number@") (.num 3) =
      (if (Json.str "@number@").isScalar
        then matchValue (NewDefaultJSONMatcher.valueMatcher) (.str "@number@") (.num 3)
        else .crash) := by
  constructor
  · exact deepMatch_kind_mismatch.1 _ _ _ (by decide) (by decide)
  · exact deepMatch_kind_mismatch.2 _ _ _ (by decide) (by decide)

/-- C9: at the scalar step, once `CanMatch(expected)` is true, the outcome is
determined by the error component of the matcher's `Match` alone — the boolean
is discarded: a `(false, nil)` verdict makes the whole top-level match
succeed, and a `(true, non-nil)` verdict makes it fail with that error's
message. -/
theorem matchValue_error_decides :
    (∀ (m : ValueMatcher) (e a : Json), m.CanMatch e = true →
        matchValue m e a =
          (match (m.Match e a).2 with
            | some err => .fail [] err
            | none => .ok)) ∧
    (∀ (M : ValueMatcher) (e a : Json), M.CanMatch e = true → e.isScalar = true →
        M.Match e a = (false, none) →
        (NewJSONMatcher M).Match (some e) (some a) = some (true, none)) ∧
    (∀ (M : ValueMatcher) (e a : Json) (err : MatchErr), M.CanMatch e = true →
        e.isScalar = true → M.Match e a = (true, some err) →
        (NewJSONMatcher M).Match (some e) (some a) = some (false, some err.message)) := by
  refine ⟨?_, ?_, ?_⟩
  · intro m e a hc
    simp [matchValue, hc]
  · intro M e a hc hs hm
    have hd := deepMatch_scalar M e a hs (Or.inr hc)
    simp [JSONMatcher.Match, NewJSONMatcher, hd, matchValue, hc, hm]
  · intro M e a err hc hs hm
    have hd := deepMatch_scalar M e a hs (Or.inr hc)
    simp [JSONMatcher.Match, NewJSONMatcher, hd, matchValue, hc, hm]

/-- Witness for C9 at concrete custom matchers: a `(false, nil)` verdict makes
the top-level match succeed; a `(true, error)` verdict makes it fail. -/
theorem matchValue_error_decides_witness :
    (NewJSONMatcher alwaysNilMatcher).Match (some (.str "x")) (some (.num 0)) =
      some (true, none) ∧
    (NewJSONMatcher alwaysErrMatcher).Match (some (.str "x")) (some (.str "x")) =
      some (false, some (MatchErr.custom "boom").message) :=
  ⟨matchValue_error_decides.2.1 _ _ _ rfl rfl rfl,
   matchValue_error_decides.2.2 _ _ _ _ rfl rfl rfl⟩

theorem matchValue_failSpec (m : ValueMatcher) (e a : Json) (p : List Seg) (err : MatchErr)
    (h : matchValue m e a = .fail p err) : ErrFrom m err := by
  by_cases hc : m.CanMatch e
  · rw [matchValue, if_pos hc] at h
    rcases h₂ : (m.Match e a).2 with _ | err₂
    · rw [h₂] at h; cases h
    · rw [h₂] at h
      cases h
      exact Or.inr (Or.inr (Or.inr (Or.inr (Or.inr ⟨e, a, hc, h₂⟩))))
  · rw [matchValue, if_neg hc] at h
    by_cases hb : Json.beq e a
    · rw [if_pos hb] at h; cases h
    · rw [if_neg hb] at h
      cases h
      exact Or.inr (Or.inl rfl)

theorem arrLoop_failSpec (m : ValueMatcher) :
    ∀ (xs ys : List Json) (i : Nat) (p : List Seg) (err : MatchErr),
      (∀ v ∈ xs, ∀ (y : Json) (p₂ : List Seg) (e₂ : MatchErr),
          deepMatch m v y = .fail p₂ e₂ → ErrFrom m e₂) →
      arrLoop m xs ys i = .failed p err → ErrFrom m err := by
  intro xs
  induction xs with
  | nil =>
    intro ys i p err _ h
    rw [arrLoop.eq_def] at h
    cases h
  | cons v rest ih =>
    intro ys i p err IH h
    rw [arrLoop.eq_def] at h
    by_cases hu : isUnbounded v
    · simp [hu] at h
    · simp only [hu, Bool.false_eq_true, if_false] at h
      split at h
      · cases h
      · split at h
        · exact ih _ _ p err (fun v₂ hv₂ => IH v₂ (by simp [hv₂])) h
        · rename_i p₂ e₂ hd
          cases h
          exact IH v (by simp) _ _ _ hd
        · cases h

theorem mapLoop_failSpec (m : ValueMatcher) :
    ∀ (rest actual : List (String × Json)) (unb : Bool) (p : List Seg) (err : MatchErr),
      (∀ kv ∈ rest, ∀ (y : Json) (p₂ : List Seg) (e₂ : MatchErr),
          deepMatch m kv.2 y = .fail p₂ e₂ → ErrFrom m e₂) →
      mapLoop m actual rest unb = .failed p err → ErrFrom m err := by
  intro rest
  induction rest with
  | nil =>
    intro actual unb p err _ h
    rw [mapLoop.eq_def] at h
    cases h
  | cons kv rest₂ ih =>
    obtain ⟨k, v₁⟩ := kv
    intro actual unb p err IH h
    rw [mapLoop.eq_def] at h
    by_cases hu : isUnbounded (.str k)
    · simp only [hu, if_true] at h
      exact ih actual true p err (fun kv₂ hkv₂ => IH kv₂ (by simp [hkv₂])) h
    · simp only [hu, Bool.false_eq_true, if_false] at h
      split at h
      · cases h
        exact Or.inr (Or.inr (Or.inr (Or.inr (Or.inl ⟨k, rfl⟩))))
      · split at h
        · exact ih actual unb p err (fun kv₂ hkv₂ => IH kv₂ (by simp [hkv₂])) h
        · rename_i p₂ e₂ hd
          cases h
          exact IH (k, v₁) (by simp) _ _ _ hd
        · cases h

theorem kind_eq_karr {a : Json} (h : a.kind = .karr) : ∃ ys, a = .arr ys := by
  cases a <;> simp [Json.kind] at h ⊢

theorem kind_eq_kobj {a : Json} (h : a.kind = .kobj) : ∃ kvs, a = .obj kvs := by
  cases a <;> simp [Json.kind] at h ⊢

theorem deepMatch_arr_nonarr (m : ValueMatcher) (xs : List Json) (a : Json)
    (hk : a.kind ≠ .karr) :
    deepMatch m (.arr xs) a =
      (if m.CanMatch (.arr xs) then .crash else .fail [] .typesNotEqual) := by
  by_cases hc : m.CanMatch (.arr xs)
  · rw [if_pos hc, deepMatch.eq_def, if_neg (by simp [hc])]
    cases a <;> first | rfl | (exact absurd rfl hk)
  · rw [if_neg hc]
    exact deepMatch_guard_fail m _ a (fun hh => hk hh.symm) (by simpa using hc)

theorem deepMatch_obj_nonobj (m : ValueMatcher) (kvs : List (String × Json)) (a : Json)
    (hk : a.kind ≠ .kobj) :
    deepMatch m (.obj kvs) a =
      (if m.CanMatch (.obj kvs) then .crash else .fail [] .typesNotEqual) := by
  by_cases hc : m.CanMatch (.obj kvs)
  · rw [if_pos hc, deepMatch.eq_def, if_neg (by simp [hc])]
    cases a <;> first | rfl | (exact absurd rfl hk)
  · rw [if_neg hc]
    exact deepMatch_guard_fail m _ a (fun hh => hk hh.symm) (by simpa using hc)

theorem deepMatch_failSpec (m : ValueMatcher) :
    ∀ (e a : Json) (p : List Seg) (err : MatchErr),
      deepMatch m e a = .fail p err → ErrFrom m err := by
  have scalar : ∀ (e a : Json), e.isScalar = true → ∀ (p : List Seg) (err : MatchErr),
      deepMatch m e a = .fail p err → ErrFrom m err := by
    intro e a hs p err h
    by_cases hc : m.CanMatch e = true
    · rw [deepMatch_scalar m e a hs (Or.inr hc)] at h
      exact matchValue_failSpec m e a p err h
    · by_cases hk : e.kind = a.kind
      · rw [deepMatch_scalar m e a hs (Or.inl hk)] at h
        exact matchValue_failSpec m e a p err h
      · rw [deepMatch_guard_fail m e a hk (by simpa using hc)] at h
        cases h
        exact Or.inl rfl
  have main : ∀ (n : Nat) (e a : Json), sizeOf e ≤ n → ∀ (p : List Seg) (err : MatchErr),
      deepMatch m e a = .fail p err → ErrFrom m err := by
    intro n
    induction n with
    | zero =>
      intro e a he
      exfalso
      cases e <;> simp at he
    | succ n ihn =>
      intro e a he p err h
      cases e with
      | null => exact scalar _ a (by rfl) p err h
      | bool b => exact scalar _ a (by rfl) p err h
      | num q => exact scalar _ a (by rfl) p err h
      | str s => exact scalar _ a (by rfl) p err h
      | arr xs =>
        have hsub : ∀ v ∈ xs, ∀ (y : Json) (p₂ : List Seg) (e₂ : MatchErr),
            deepMatch m v y = .fail p₂ e₂ → ErrFrom m e₂ := by
          intro v hv y p₂ e₂ hd
          have h₁ : sizeOf v < sizeOf xs := List.sizeOf_lt_of_mem hv
          have h₂ : sizeOf (Json.arr xs) = 1 + sizeOf xs := by simp
          exact ihn v y (by omega) p₂ e₂ hd
        by_cases hk : a.kind = .karr
        · obtain ⟨ys, rfl⟩ := kind_eq_karr hk
          rw [deepMatch_arr, deepMatchArray.eq_def] at h
          split at h
          · rename_i p₂ e₂ hl
            cases h
            exact arrLoop_failSpec m xs ys 0 _ _ hsub hl
          · cases h
          · cases h
          · split at h
            · cases h
              exact Or.inr (Or.inr (Or.inl rfl))
            · cases h
        · rw [deepMatch_arr_nonarr m xs a hk] at h
          by_cases hc : m.CanMatch (.arr xs)
          · rw [if_pos hc] at h; cases h
          · rw [if_neg hc] at h
            cases h
            exact Or.inl rfl
      | obj kvs =>
        have hsub : ∀ kv ∈ kvs, ∀ (y : Json) (p₂ : List Seg) (e₂ : MatchErr),
            deepMatch m kv.2 y = .fail p₂ e₂ → ErrFrom m e₂ := by
          intro kv hkv y p₂ e₂ hd
          have h₁ : sizeOf kv < sizeOf kvs := List.sizeOf_lt_of_mem hkv
          have h₂ : sizeOf (Json.obj kvs) = 1 + sizeOf kvs := by simp
          obtain ⟨k, v⟩ := kv
          have h₃ : sizeOf v < sizeOf (k, v) := by simp
          have h₄ : sizeOf (k, v) < sizeOf kvs := h₁
          exact ihn v y (by omega) p₂ e₂ hd
        by_cases hk : a.kind = .kobj
        · obtain ⟨kvs₂, rfl⟩ := kind_eq_kobj hk
          rw [deepMatch_obj, deepMatchMap.eq_def] at h
          split at h
          · rename_i p₂ e₂ hl
            cases h
            exact mapLoop_failSpec m kvs kvs₂ false _ _ hsub hl
          · cases h
          · split at h
            · cases h
              exact Or.inr (Or.inr (Or.inr (Or.inl rfl)))
            · cases h
        · rw [deepMatch_obj_nonobj m kvs a hk] at h
          by_cases hc : m.CanMatch (.obj kvs)
          · rw [if_pos hc] at h; cases h
          · rw [if_neg hc] at h
            cases h
            exact Or.inl rfl
  intro e a
  exact main (sizeOf e) e a le_rfl

theorem chainMatch_no_mnf (ms : List ValueMatcher)
    (H : ∀ m ∈ ms, ∀ (p v : Json), (m.Match p v).2 ≠ some .matcherNotFound)
    (p v : Json) (hc : ChainMatcher.CanMatch ms p = true) :
    (ChainMatcher.Match ms p v).2 ≠ some .matcherNotFound := by
  induction ms with
  | nil => rw [ChainMatcher.CanMatch] at hc; cases hc
  | cons m rest ih =>
    rw [ChainMatcher.Match]
    by_cases hm : m.CanMatch p
    · rw [if_pos hm]
      exact H m (by simp) p v
    · rw [if_neg hm]
      apply ih fun m₂ h₂ => H m₂ (by simp [h₂])
      rw [ChainMatcher.CanMatch] at hc
      simpa [hm] using hc

theorem builtins_no_mnf :
    ∀ m ∈ [NewStringMatcher patternString, NewNumberMatcher patternNumber,
        NewBoolMatcher patternBool, NewArrayMatcher patternArray, NewUUIDMatcher patternUUID,
        NewEmailMatcher patternEmail, NewWildcardMatcher patternWildcard],
      ∀ (p v : Json), (m.Match p v).2 ≠ some MatchErr.matcherNotFound := by
  intro m hm p v
  simp only [List.mem_cons, List.not_mem_nil, or_false] at hm
  rcases hm with rfl | rfl | rfl | rfl | rfl | rfl | rfl <;> cases v <;>
    simp [NewStringMatcher, NewNumberMatcher, NewBoolMatcher, NewArrayMatcher,
      NewUUIDMatcher, NewEmailMatcher, NewWildcardMatcher] <;> split <;> simp

theorem defaultMatcher_no_mnf (p v : Json)
    (hc : (NewDefaultJSONMatcher.valueMatcher).CanMatch p = true) :
    ((NewDefaultJSONMatcher.valueMatcher).Match p v).2 ≠ some .matcherNotFound :=
  chainMatch_no_mnf _ builtins_no_mnf p v hc

/-- C4: the chain-exhaustion error is unreachable through the engine: the
scalar step consults the matcher only after `CanMatch` accepted the expected
value (when it declined, the step is pure literal equality); an accepting
chain always delegates to a constituent; hence every failure error is either
from the engine's own taxonomy or handed back by an accepted constituent — so
if no constituent ever returns the chain's sentinel error, the engine cannot
surface it — and an expected placeholder string recognized by no configured
matcher makes the top-level match fail with "values are not equal". -/
theorem chain_exhaustion_unreachable :
    (∀ (m : ValueMatcher) (e a : Json), m.CanMatch e = false →
        ((e = a → matchValue m e a = .ok) ∧
          (e ≠ a → matchValue m e a = .fail [] .valuesNotEqual))) ∧
    (∀ (ms : List ValueMatcher) (e v : Json), ChainMatcher.CanMatch ms e = true →
        ∃ m ∈ ms, m.CanMatch e = true ∧ ChainMatcher.Match ms e v = m.Match e v) ∧
    (∀ (m : ValueMatcher),
        (∀ (p₂ v₂ : Json), m.CanMatch p₂ = true → (m.Match p₂ v₂).2 ≠ some .matcherNotFound) →
        ∀ (e a : Json) (p : List Seg) (err : MatchErr),
          deepMatch m e a = .fail p err → err ≠ .matcherNotFound) ∧
    (∀ (ms : List ValueMatcher) (s : String) (a : Json),
        ChainMatcher.CanMatch ms (.str s) = false → a.kind = .kstr → Json.str s ≠ a →
        (NewJSONMatcher (NewChainMatcher ms)).Match (some (.str s)) (some a) =
          some (false, some "values are not equal")) := by
  refine ⟨?_, ?_, ?_, ?_⟩
  · intro m e a hc
    constructor
    · intro hEq
      rw [matchValue, if_neg (by simp [hc]), if_pos (by rw [hEq]; exact Json.beq_refl a)]
    · intro hNe
      rw [matchValue, if_neg (by simp [hc]),
        if_neg (by intro hb; exact hNe ((Json.beq_iff_eq e a).1 hb))]
  · intro ms e v hc
    induction ms with
    | nil => rw [ChainMatcher.CanMatch] at hc; cases hc
    | cons m rest ih =>
      by_cases hm : m.CanMatch e
      · exact ⟨m, by simp, hm, by rw [ChainMatcher.Match, if_pos hm]⟩
      · rw [ChainMatcher.CanMatch] at hc
        simp only [hm, if_false] at hc
        obtain ⟨m₂, hmem, hcm, heq⟩ := ih hc
        exact ⟨m₂, by simp [hmem], hcm, by rw [ChainMatcher.Match, if_neg hm]; exact heq⟩
  · intro m H e a p err h
    rcases deepMatch_failSpec m e a p err h with h₁ | h₁ | h₁ | h₁ | ⟨k, h₁⟩ | ⟨p₂, v₂, hcm, h₁⟩ <;>
      subst_eqs <;> try simp
    intro hEq
    exact H p₂ v₂ hcm (hEq ▸ h₁)
  · intro ms s a hc hk hne
    have hd : deepMatch (NewChainMatcher ms) (.str s) a = .fail [] .valuesNotEqual := by
      rw [deepMatch_scalar _ _ a (by rfl) (Or.inl (by rw [hk]; rfl))]
      rw [matchValue, if_neg (by simp [NewChainMatcher, hc]),
        if_neg (by intro hb; exact hne ((Json.beq_iff_eq _ a).1 hb))]
    simp [JSONMatcher.Match, NewJSONMatcher, hd, MatchErr.message]

/-- Witness for C4 at concrete inputs: the default chain (whose constituents
never return the chain sentinel error) turns a concrete scalar failure into
"values are not equal", never the exhaustion error; an unrecognized
placeholder string falls through to literal equality at the top level. -/
theorem chain_exhaustion_unreachable_witness :
    matchValue (NewChainMatcher []) (.str "@unknown@") (.num 5) =
      .fail [] .valuesNotEqual ∧
    MatchErr.valuesNotEqual ≠ MatchErr.matcherNotFound ∧
    (NewJSONMatcher (NewChainMatcher [NewStringMatcher patternString])).Match
        (some (.str "@unknown@")) (some (.str "x")) =
      some (false, some "values are not equal") := by
  refine ⟨?_, ?_, ?_⟩
  · exact (chain_exhaustion_unreachable.1 (NewChainMatcher []) _ _ (by decide)).2 (by simp)
  · have hd : deepMatch (NewDefaultJSONMatcher.valueMatcher) (.num 1) (.num 2) =
        .fail [] .valuesNotEqual := by
      rw [deepMatch_scalar (NewDefaultJSONMatcher.valueMatcher) (.num 1) (.num 2)
        (by rfl) (Or.inl rfl)]
      decide
    exact chain_exhaustion_unreachable.2.2.1 _ defaultMatcher_no_mnf _ _ _ _ hd
  · exact chain_exhaustion_unreachable.2.2.2 _ "@unknown@" (.str "x") (by decide) (by decide)
      (by simp)

theorem mapLoop_all_found (m : ValueMatcher) (actual : List (String × Json)) :
    ∀ (rest : List (String × Json)) (unb : Bool),
      (∀ kv ∈ rest, kv.1 ≠ patternUnbounded →
          ∃ v₂, lookupKey kv.1 actual = some v₂ ∧ deepMatch m kv.2 v₂ = .ok) →
      mapLoop m actual rest unb =
        .finished (unb || rest.any fun kv => kv.1 = patternUnbounded) := by
  intro rest
  induction rest with
  | nil =>
    intro unb _
    rw [mapLoop.eq_def]
    simp
  | cons kv rest₂ ih =>
    obtain ⟨k, v₁⟩ := kv
    intro unb H
    rw [mapLoop.eq_def]
    by_cases hu : isUnbounded (.str k)
    · have hk : k = patternUnbounded := by
        simpa [isUnbounded, isPattern] using hu
      simp only [hu, if_true]
      rw [ih true fun kv₂ h₂ => H kv₂ (by simp [h₂])]
      simp [hk]
    · have hk : ¬k = patternUnbounded := by
        simpa [isUnbounded, isPattern] using hu
      obtain ⟨v₂, hl, hd⟩ := H (k, v₁) (by simp) hk
      have hl₂ : lookupKey k actual = some v₂ := hl
      have hd₂ : deepMatch m v₁ v₂ = .ok := hd
      simp only [hu, Bool.false_eq_true, if_false, hl₂, hd₂]
      rw [ih unb fun kv₂ h₂ => H kv₂ (by simp [h₂])]
      simp [hk]

theorem mapLoop_missing_key (m : ValueMatcher) (actual : List (String × Json)) :
    ∀ (pre : List (String × Json)) (k : String) (v : Json)
      (rest : List (String × Json)) (unb : Bool),
      (∀ kv ∈ pre, kv.1 ≠ patternUnbounded →
          ∃ v₂, lookupKey kv.1 actual = some v₂ ∧ deepMatch m kv.2 v₂ = .ok) →
      k ≠ patternUnbounded → lookupKey k actual = none →
      mapLoop m actual (pre ++ (k, v) :: rest) unb = .failed [] (.expectedKey k) := by
  intro pre
  induction pre with
  | nil =>
    intro k v rest unb _ hk hl
    rw [List.nil_append, mapLoop.eq_def]
    have hu : ¬isUnbounded (Json.str k) = true := by
      simpa [isUnbounded, isPattern] using hk
    simp only [hu, Bool.false_eq_true, if_false]
    rw [hl]
  | cons kv pre₂ ih =>
    obtain ⟨k₁, v₁⟩ := kv
    intro k v rest unb H hk hl
    rw [List.cons_append, mapLoop.eq_def]
    by_cases hu : isUnbounded (.str k₁)
    · simp only [hu, if_true]
      exact ih k v rest true (fun kv₂ h₂ => H kv₂ (by simp [h₂])) hk hl
    · have hk₁ : ¬k₁ = patternUnbounded := by
        simpa [isUnbounded, isPattern] using hu
      obtain ⟨v₂, hl₁, hd₁⟩ := H (k₁, v₁) (by simp) hk₁
      have hl₂ : lookupKey k₁ actual = some v₂ := hl₁
      have hd₂ : deepMatch m v₁ v₂ = .ok := hd₁
      simp only [hu, Bool.false_eq_true, if_false, hl₂, hd₂]
      exact ih k v rest unb (fun kv₂ h₂ => H kv₂ (by simp [h₂])) hk hl

/-- C1: in an expected object containing the unbounded key `"@...@"`, the
key-count check is skipped — if every other expected key is present and its
value matches, the match succeeds no matter how many extra keys the actual
object has, and the value stored under the unbounded key is never inspected
(it is universally quantified here) — but a required key absent from the
actual object still fails the match with the error `expected key "<key>"`,
whether or not the unbounded key is present elsewhere in the object. -/
theorem unbounded_object_semantics :
    (∀ (m : ValueMatcher) (kvs kvs₂ : List (String × Json)) (w : Json),
        (patternUnbounded, w) ∈ kvs →
        (∀ kv ∈ kvs, kv.1 ≠ patternUnbounded →
            ∃ v₂, lookupKey kv.1 kvs₂ = some v₂ ∧ deepMatch m kv.2 v₂ = .ok) →
        deepMatchMap m kvs kvs₂ = .ok) ∧
    (∀ (m : ValueMatcher) (pre : List (String × Json)) (k : String) (v : Json)
        (rest kvs₂ : List (String × Json)),
        (∀ kv ∈ pre, kv.1 ≠ patternUnbounded →
            ∃ v₂, lookupKey kv.1 kvs₂ = some v₂ ∧ deepMatch m kv.2 v₂ = .ok) →
        k ≠ patternUnbounded → lookupKey k kvs₂ = none →
        deepMatchMap m (pre ++ (k, v) :: rest) kvs₂ = .fail [] (.expectedKey k)) := by
  constructor
  · intro m kvs kvs₂ w hw H
    rw [deepMatchMap.eq_def, mapLoop_all_found m kvs₂ kvs false H]
    have hany : (kvs.any fun kv => kv.1 = patternUnbounded) = true :=
      List.any_eq_true.2 ⟨(patternUnbounded, w), hw, by simp⟩
    simp [hany]
  · intro m pre k v rest kvs₂ H hk hl
    rw [deepMatchMap.eq_def, mapLoop_missing_key m kvs₂ pre k v rest false H hk hl]

/-- Witness for C1 on the spec's own example: expected
`{"id": 1, "@...@": ""}` matches `{"id": 1, "name": "x"}` (the extra key is
tolerated), while `{"name": "x"}` fails with `expected key "id"`. -/
theorem unbounded_object_semantics_witness :
    deepMatchMap (NewDefaultJSONMatcher.valueMatcher)
        [("id", .num 1), (patternUnbounded, .str "")]
        [("id", .num 1), ("name", .str "x")] = .ok ∧
    deepMatchMap (NewDefaultJSONMatcher.valueMatcher)
        [("id", .num 1), (patternUnbounded, .str "")]
        [("name", .str "x")] = .fail [] (.expectedKey "id") := by
  constructor
  · refine unbounded_object_semantics.1 _ _ _ (.str "")
      (List.mem_cons_of_mem _ (List.mem_cons_self _ _)) ?_
    intro kv hkv hne
    rcases List.mem_cons.1 hkv with h | h
    · refine ⟨.num 1, by subst h; rfl, ?_⟩
      subst h
      rw [deepMatch_scalar (NewDefaultJSONMatcher.valueMatcher) (.num 1) (.num 1)
        (by rfl) (Or.inl rfl)]
      decide
    · rcases List.mem_cons.1 h with h₂ | h₂
      · exact absurd (by rw [h₂]) hne
      · exact absurd h₂ (List.not_mem_nil _)
  · have := unbounded_object_semantics.2 (NewDefaultJSONMatcher.valueMatcher)
      [] "id" (.num 1) [(patternUnbounded, .str "")] [("name", .str "x")]
      (fun kv hkv => absurd hkv (List.not_mem_nil _)) (by decide) (by simp [lookupKey])
    simpa using this

theorem arrLoop_all_matched (m : ValueMatcher) :
    ∀ (xs ys : List Json) (i : Nat),
      (∀ v ∈ xs, isUnbounded v = false) →
      (∀ pr ∈ xs.zip ys, deepMatch m pr.1 pr.2 = .ok) →
      arrLoop m xs ys i = .finished := by
  intro xs
  induction xs with
  | nil =>
    intro ys i _ _
    rw [arrLoop.eq_def]
  | cons v rest ih =>
    intro ys i hU hZ
    rw [arrLoop.eq_def]
    have hu : ¬isUnbounded v = true := by simp [hU v (by simp)]
    cases ys with
    | nil => simp only [hu, Bool.false_eq_true, if_false]
    | cons y ys₂ =>
      have hd : deepMatch m v y = .ok := hZ (v, y) (by simp)
      simp only [hu, Bool.false_eq_true, if_false, hd]
      exact ih ys₂ (i + 1) (fun v₂ h₂ => hU v₂ (by simp [h₂]))
        fun pr hpr => hZ pr (by simp [hpr])

theorem arrLoop_hits_unbounded (m : ValueMatcher) :
    ∀ (pre ys : List Json) (i : Nat) (rest : List Json),
      (∀ v ∈ pre, isUnbounded v = false) →
      (∀ pr ∈ pre.zip ys, deepMatch m pr.1 pr.2 = .ok) →
      pre.length ≤ ys.length →
      arrLoop m (pre ++ .str patternUnbounded :: rest) ys i = .unbounded := by
  intro pre
  induction pre with
  | nil =>
    intro ys i rest _ _ _
    rw [List.nil_append, arrLoop.eq_def]
    simp [isUnbounded, isPattern]
  | cons v pre₂ ih =>
    intro ys i rest hU hZ hlen
    rw [List.cons_append, arrLoop.eq_def]
    have hu : ¬isUnbounded v = true := by simp [hU v (by simp)]
    cases ys with
    | nil => simp at hlen
    | cons y ys₂ =>
      have hd : deepMatch m v y = .ok := hZ (v, y) (by simp)
      simp only [hu, Bool.false_eq_true, if_false, hd]
      exact ih ys₂ (i + 1) rest (fun v₂ h₂ => hU v₂ (by simp [h₂]))
        (fun pr hpr => hZ pr (by simp [hpr])) (by simpa using hlen)

theorem arrLoop_actual_exhausted (m : ValueMatcher) :
    ∀ (pre ys : List Json) (i : Nat) (rest : List Json),
      (∀ v ∈ pre, isUnbounded v = false) →
      (∀ pr ∈ pre.zip ys, deepMatch m pr.1 pr.2 = .ok) →
      ys.length < pre.length →
      arrLoop m (pre ++ rest) ys i = .finished := by
  intro pre
  induction pre with
  | nil =>
    intro ys i rest _ _ h
    simp at h
  | cons v pre₂ ih =>
    intro ys i rest hU hZ hlen
    rw [List.cons_append, arrLoop.eq_def]
    have hu : ¬isUnbounded v = true := by simp [hU v (by simp)]
    cases ys with
    | nil => simp only [hu, Bool.false_eq_true, if_false]
    | cons y ys₂ =>
      have hd : deepMatch m v y = .ok := hZ (v, y) (by simp)
      simp only [hu, Bool.false_eq_true, if_false, hd]
      exact ih ys₂ (i + 1) rest (fun v₂ h₂ => hU v₂ (by simp [h₂]))
        (fun pr hpr => hZ pr (by simp [hpr])) (by simpa using hlen)

/-- C2: array comparison recurses index by index on the expected elements.
Reaching an unbounded sentinel stops iteration and skips the length check, so
any further actual elements (or none at all beyond the compared prefix) are
accepted without inspection; if the actual array runs out strictly before the
sentinel position, or no sentinel is present and the lengths differ in either
direction, the result is "arrays sizes are not equal" with an empty path at
the array's own level; with no sentinel, equal lengths and element-wise
success the array matches. -/
theorem array_unbounded_semantics :
    (∀ (m : ValueMatcher) (pre rest ys : List Json),
        (∀ v ∈ pre, isUnbounded v = false) →
        (∀ pr ∈ pre.zip ys, deepMatch m pr.1 pr.2 = .ok) →
        pre.length ≤ ys.length →
        deepMatchArray m (pre ++ .str patternUnbounded :: rest) ys = .ok) ∧
    (∀ (m : ValueMatcher) (pre rest ys : List Json),
        (∀ v ∈ pre, isUnbounded v = false) →
        (∀ pr ∈ pre.zip ys, deepMatch m pr.1 pr.2 = .ok) →
        ys.length < pre.length →
        deepMatchArray m (pre ++ .str patternUnbounded :: rest) ys =
          .fail [] .arraysLenNotEqual) ∧
    (∀ (m : ValueMatcher) (xs ys : List Json),
        (∀ v ∈ xs, isUnbounded v = false) →
        (∀ pr ∈ xs.zip ys, deepMatch m pr.1 pr.2 = .ok) →
        xs.length ≠ ys.length →
        deepMatchArray m xs ys = .fail [] .arraysLenNotEqual) ∧
    (∀ (m : ValueMatcher) (xs ys : List Json),
        (∀ v ∈ xs, isUnbounded v = false) →
        (∀ pr ∈ xs.zip ys, deepMatch m pr.1 pr.2 = .ok) →
        xs.length = ys.length →
        deepMatchArray m xs ys = .ok) := by
  refine ⟨?_, ?_, ?_, ?_⟩
  · intro m pre rest ys hU hZ hlen
    rw [deepMatchArray.eq_def, arrLoop_hits_unbounded m pre ys 0 rest hU hZ hlen]
  · intro m pre rest ys hU hZ hlen
    rw [deepMatchArray.eq_def,
      arrLoop_actual_exhausted m pre ys 0 (.str patternUnbounded :: rest) hU hZ hlen]
    rw [if_pos (by simp [List.length_append]; omega)]
  · intro m xs ys hU hZ hlen
    by_cases hc : ys.length < xs.length
    · have hfin := arrLoop_actual_exhausted m xs ys 0 [] hU hZ hc
      rw [List.append_nil] at hfin
      rw [deepMatchArray.eq_def, hfin, if_pos hlen]
    · have hfin := arrLoop_all_matched m xs ys 0 hU hZ
      rw [deepMatchArray.eq_def, hfin, if_pos hlen]
  · intro m xs ys hU hZ hlen
    rw [deepMatchArray.eq_def, arrLoop_all_matched m xs ys 0 hU hZ, if_neg (by simp [hlen])]

/-- Witness for C2 on the spec's own example: expected `[1, 2, "@...@"]`
matches `[1, 2, 3, 4]`, and fails against `[1]` with the array-size error
because the actual runs out before the sentinel. -/
theorem array_unbounded_semantics_witness :
    deepMatchArray (NewDefaultJSONMatcher.valueMatcher)
        [.num 1, .num 2, .str patternUnbounded] [.num 1, .num 2, .num 3, .num 4] = .ok ∧
    deepMatchArray (NewDefaultJSONMatcher.valueMatcher)
        [.num 1, .num 2, .str patternUnbounded] [.num 1] =
      .fail [] .arraysLenNotEqual := by
  have h1 : deepMatch (NewDefaultJSONMatcher.valueMatcher) (.num 1) (.num 1) = .ok := by
    rw [deepMatch_scalar (NewDefaultJSONMatcher.valueMatcher) (.num 1) (.num 1)
      (by rfl) (Or.inl rfl)]
    decide
  have h2 : deepMatch (NewDefaultJSONMatcher.valueMatcher) (.num 2) (.num 2) = .ok := by
    rw [deepMatch_scalar (NewDefaultJSONMatcher.valueMatcher) (.num 2) (.num 2)
      (by rfl) (Or.inl rfl)]
    decide
  constructor
  · refine array_unbounded_semantics.1 _ [.num 1, .num 2] [] _ (by decide) ?_ (by decide)
    intro pr hpr
    simp only [List.zip_cons_cons, List.zip_nil_left, List.mem_cons, List.not_mem_nil,
      or_false] at hpr
    rcases hpr with rfl | rfl
    · exact h1
    · exact h2
  · refine array_unbounded_semantics.2.1 _ [.num 1, .num 2] [] _ (by decide) ?_ (by decide)
    intro pr hpr
    simp only [List.zip_cons_cons, List.zip_nil_left, List.zip_nil_right, List.mem_cons,
      List.not_mem_nil, or_false] at hpr
    rcases hpr with rfl
    exact h1

theorem deepMatchArray_failed (m : ValueMatcher) (xs ys : List Json) (p : List Seg)
    (e : MatchErr) (h : arrLoop m xs ys 0 = .failed p e) :
    deepMatchArray m xs ys = .fail p e := by
  rw [deepMatchArray.eq_def, h]

theorem deepMatchMap_failed (m : ValueMatcher) (kvs kvs₂ : List (String × Json))
    (p : List Seg) (e : MatchErr) (h : mapLoop m kvs₂ kvs false = .failed p e) :
    deepMatchMap m kvs kvs₂ = .fail p e := by
  rw [deepMatchMap.eq_def, h]

theorem deepMatchMap_finished (m : ValueMatcher) (kvs kvs₂ : List (String × Json))
    (unb : Bool) (h : mapLoop m kvs₂ kvs false = .finished unb) :
    deepMatchMap m kvs kvs₂ =
      if ¬unb = true ∧ kvs.length ≠ kvs₂.length then .fail [] .unexpectedKey else .ok := by
  rw [deepMatchMap.eq_def, h]

theorem arrLoop_fail_at (m : ValueMatcher) :
    ∀ (pre ysPre : List Json) (v y : Json) (rest ysRest : List Json) (i : Nat)
      (p : List Seg) (e : MatchErr),
      (∀ w ∈ pre, isUnbounded w = false) →
      pre.length = ysPre.length →
      (∀ pr ∈ pre.zip ysPre, deepMatch m pr.1 pr.2 = .ok) →
      isUnbounded v = false →
      deepMatch m v y = .fail p e →
      arrLoop m (pre ++ v :: rest) (ysPre ++ y :: ysRest) i =
        .failed (p ++ [Seg.idx (i + pre.length)]) e := by
  intro pre
  induction pre with
  | nil =>
    intro ysPre v y rest ysRest i p e _ hlen _ hv hd
    obtain rfl : ysPre = [] := List.length_eq_zero.1 hlen.symm
    rw [List.nil_append, List.nil_append, arrLoop.eq_def]
    simp only [hv, Bool.false_eq_true, if_false, hd]
    simp
  | cons v₁ pre₂ ih =>
    intro ysPre v y rest ysRest i p e hU hlen hZ hv hd
    cases ysPre with
    | nil => simp at hlen
    | cons y₁ ysPre₂ =>
      have hu : ¬isUnbounded v₁ = true := by simp [hU v₁ (by simp)]
      have hd₁ : deepMatch m v₁ y₁ = .ok := hZ (v₁, y₁) (by simp)
      rw [List.cons_append, List.cons_append, arrLoop.eq_def]
      simp only [hu, Bool.false_eq_true, if_false, hd₁]
      have := ih ysPre₂ v y rest ysRest (i + 1) p e (fun w hw => hU w (by simp [hw]))
        (by simpa using hlen) (fun pr hpr => hZ pr (by simp [hpr])) hv hd
      rw [this]
      have harith : i + 1 + pre₂.length = i + (pre₂.length + 1) := by omega
      simp [harith]

theorem mapLoop_fail_at (m : ValueMatcher) (actual : List (String × Json)) :
    ∀ (pre : List (String × Json)) (k : String) (v v₂ : Json)
      (rest : List (String × Json)) (unb : Bool) (p : List Seg) (e : MatchErr),
      (∀ kv ∈ pre, kv.1 ≠ patternUnbounded →
          ∃ w, lookupKey kv.1 actual = some w ∧ deepMatch m kv.2 w = .ok) →
      k ≠ patternUnbounded →
      lookupKey k actual = some v₂ →
      deepMatch m v v₂ = .fail p e →
      mapLoop m actual (pre ++ (k, v) :: rest) unb = .failed (p ++ [Seg.key k]) e := by
  intro pre
  induction pre with
  | nil =>
    intro k v v₂ rest unb p e _ hk hl hd
    rw [List.nil_append, mapLoop.eq_def]
    have hu : ¬isUnbounded (Json.str k) = true := by
      simpa [isUnbounded, isPattern] using hk
    simp only [hu, Bool.false_eq_true, if_false, hl, hd]
  | cons kv pre₂ ih =>
    obtain ⟨k₁, v₁⟩ := kv
    intro k v v₂ rest unb p e H hk hl hd
    rw [List.cons_append, mapLoop.eq_def]
    by_cases hu : isUnbounded (.str k₁)
    · simp only [hu, if_true]
      exact ih k v v₂ rest true p e (fun kv₂ h₂ => H kv₂ (by simp [h₂])) hk hl hd
    · have hk₁ : ¬k₁ = patternUnbounded := by
        simpa [isUnbounded, isPattern] using hu
      obtain ⟨w, hl₁, hd₁⟩ := H (k₁, v₁) (by simp) hk₁
      have hl₂ : lookupKey k₁ actual = some w := hl₁
      have hd₂ : deepMatch m v₁ w = .ok := hd₁
      simp only [hu, Bool.false_eq_true, if_false, hl₂, hd₂]
      exact ih k v v₂ rest unb p e (fun kv₂ h₂ => H kv₂ (by simp [h₂])) hk hl hd

/-- C5: on failure, the array frame appends the failing element's index and
the object frame appends the failing key to the inner path (exactly one
segment per frame); the top-level `Match` appends `" at path: "` with the
formatted path only when the path is non-empty and otherwise returns the
terminal message unchanged; rendering walks the segments outermost-first —
an index renders as `[N]` with no separator before it and a key is joined
with `.` to previously rendered text — so the spec's nested-phones mismatch
renders as `values are not equal at path: phones[1].type` and two nested
keys render as `a.b`. -/
theorem path_reporting :
    (∀ (m : ValueMatcher) (pre ysPre : List Json) (v y : Json) (rest ysRest : List Json)
        (p : List Seg) (e : MatchErr),
        (∀ w ∈ pre, isUnbounded w = false) →
        pre.length = ysPre.length →
        (∀ pr ∈ pre.zip ysPre, deepMatch m pr.1 pr.2 = .ok) →
        isUnbounded v = false →
        deepMatch m v y = .fail p e →
        deepMatchArray m (pre ++ v :: rest) (ysPre ++ y :: ysRest) =
          .fail (p ++ [Seg.idx pre.length]) e) ∧
    (∀ (m : ValueMatcher) (pre : List (String × Json)) (k : String) (v v₂ : Json)
        (rest kvs₂ : List (String × Json)) (p : List Seg) (e : MatchErr),
        (∀ kv ∈ pre, kv.1 ≠ patternUnbounded →
            ∃ w, lookupKey kv.1 kvs₂ = some w ∧ deepMatch m kv.2 w = .ok) →
        k ≠ patternUnbounded →
        lookupKey k kvs₂ = some v₂ →
        deepMatch m v v₂ = .fail p e →
        deepMatchMap m (pre ++ (k, v) :: rest) kvs₂ = .fail (p ++ [Seg.key k]) e) ∧
    (∀ (M : JSONMatcher) (e a : Json) (path : List Seg) (err : MatchErr),
        deepMatch M.valueMatcher e a = .fail path err →
        M.Match (some e) (some a) =
          some (false, some (if 0 < path.length
            then err.message ++ " at path: " ++ pathToString path
            else err.message))) ∧
    pathToString [Seg.key "type", Seg.idx 1, Seg.key "phones"] = "phones[1].type" ∧
    pathToString [Seg.key "b", Seg.key "a"] = "a.b" ∧
    NewDefaultJSONMatcher.Match
        (some (.obj [("phones", .arr [.obj [("type", .str "home")],
          .obj [("type", .str "work")]])]))
        (some (.obj [("phones", .arr [.obj [("type", .str "home")],
          .obj [("type", .str "mobile")]])])) =
      some (false, some "values are not equal at path: phones[1].type") := by
  refine ⟨?_, ?_, ?_, by decide, by decide, ?_⟩
  · intro m pre ysPre v y rest ysRest p e hU hlen hZ hv hd
    rw [deepMatchArray.eq_def, arrLoop_fail_at m pre ysPre v y rest ysRest 0 p e hU hlen hZ hv hd]
    simp
  · intro m pre k v v₂ rest kvs₂ p e H hk hl hd
    rw [deepMatchMap.eq_def, mapLoop_fail_at m kvs₂ pre k v v₂ rest false p e H hk hl hd]
  · intro M e a path err h
    by_cases hp : 0 < path.length
    · simp [JSONMatcher.Match, h, hp]
    · simp [JSONMatcher.Match, h, hp]
  · have h1 : deepMatch (NewDefaultJSONMatcher.valueMatcher) (.str "work") (.str "mobile") =
        .fail [] .valuesNotEqual := by
      rw [deepMatch_scalar (NewDefaultJSONMatcher.valueMatcher) (.str "work") (.str "mobile")
        (by rfl) (Or.inl rfl)]
      decide
    have h2 : deepMatch (NewDefaultJSONMatcher.valueMatcher)
        (.obj [("type", .str "work")]) (.obj [("type", .str "mobile")]) =
        .fail [Seg.key "type"] .valuesNotEqual := by
      rw [deepMatch_obj]
      have hm := mapLoop_fail_at (NewDefaultJSONMatcher.valueMatcher) [("type", .str "mobile")]
        [] "type" (.str "work") (.str "mobile") [] false [] .valuesNotEqual
        (fun kv hkv => absurd hkv (List.not_mem_nil _)) (by decide) (by simp [lookupKey]) h1
      simp only [List.nil_append] at hm
      exact deepMatchMap_failed _ _ _ _ _ hm
    have hok : deepMatch (NewDefaultJSONMatcher.valueMatcher) (.str "home") (.str "home") =
        .ok := by
      rw [deepMatch_scalar (NewDefaultJSONMatcher.valueMatcher) (.str "home") (.str "home")
        (by rfl) (Or.inl rfl)]
      decide
    have h3 : deepMatch (NewDefaultJSONMatcher.valueMatcher)
        (.obj [("type", .str "home")]) (.obj [("type", .str "home")]) = .ok := by
      rw [deepMatch_obj]
      have hm := mapLoop_all_found (NewDefaultJSONMatcher.valueMatcher)
        [("type", .str "home")] [("type", .str "home")] false ?_
      · rw [deepMatchMap_finished _ _ _ _ hm]
        simp [patternUnbounded]
      · intro kv hkv hne
        simp only [List.mem_cons, List.not_mem_nil, or_false] at hkv
        subst hkv
        exact ⟨.str "home", by simp [lookupKey], hok⟩
    have h4 : deepMatch (NewDefaultJSONMatcher.valueMatcher)
        (.arr [.obj [("type", .str "home")], .obj [("type", .str "work")]])
        (.arr [.obj [("type", .str "home")], .obj [("type", .str "mobile")]]) =
        .fail [Seg.key "type", Seg.idx 1] .valuesNotEqual := by
      rw [deepMatch_arr]
      have ha := arrLoop_fail_at (NewDefaultJSONMatcher.valueMatcher)
        [.obj [("type", .str "home")]] [.obj [("type", .str "home")]]
        (.obj [("type", .str "work")]) (.obj [("type", .str "mobile")]) [] [] 0
        [Seg.key "type"] .valuesNotEqual ?_ rfl ?_ (by decide) h2
      · simp only [List.cons_append, List.nil_append] at ha
        exact deepMatchArray_failed _ _ _ _ _ ha
      · intro w hw
        simp only [List.mem_cons, List.not_mem_nil, or_false] at hw
        subst hw
        decide
      · intro pr hpr
        simp only [List.zip_cons_cons, List.zip_nil_left, List.mem_cons, List.not_mem_nil,
          or_false] at hpr
        rcases hpr with rfl
        exact h3
    have h5 : deepMatch (NewDefaultJSONMatcher.valueMatcher)
        (.obj [("phones", .arr [.obj [("type", .str "home")], .obj [("type", .str "work")]])])
        (.obj [("phones", .arr [.obj [("type", .str "home")],
          .obj [("type", .str "mobile")]])]) =
        .fail [Seg.key "type", Seg.idx 1, Seg.key "phones"] .valuesNotEqual := by
      rw [deepMatch_obj]
      have hm := mapLoop_fail_at (NewDefaultJSONMatcher.valueMatcher)
        [("phones", .arr [.obj [("type", .str "home")], .obj [("type", .str "mobile")]])]
        [] "phones"
        (.arr [.obj [("type", .str "home")], .obj [("type", .str "work")]])
        (.arr [.obj [("type", .str "home")], .obj [("type", .str "mobile")]])
        [] false [Seg.key "type", Seg.idx 1] .valuesNotEqual
        (fun kv hkv => absurd hkv (List.not_mem_nil _)) (by decide) (by simp [lookupKey]) h4
      simp only [List.nil_append] at hm
      exact deepMatchMap_failed _ _ _ _ _ hm
    rw [JSONMatcher.Match]
    rw [show NewDefaultJSONMatcher.valueMatcher = NewDefaultJSONMatcher.valueMatcher from rfl]
    rw [h5]
    decide

/-- Witness for C5 at concrete frames: an inner scalar failure at array index
1 under key "phones" accumulates `[.key "type", .idx 1, .key "phones"]`, and
the top-level operation renders it after " at path: ". -/
theorem path_reporting_witness :
    deepMatchArray (NewDefaultJSONMatcher.valueMatcher)
        [.str "a", .str "b"] [.str "a", .str "zzz"] =
      .fail [Seg.idx 1] .valuesNotEqual ∧
    deepMatchMap (NewDefaultJSONMatcher.valueMatcher)
        [("k", .str "b")] [("k", .str "zzz")] =
      .fail [Seg.key "k"] .valuesNotEqual ∧
    (NewJSONMatcher (NewChainMatcher [])).Match (some (.num 1)) (some (.num 2)) =
      some (false, some "values are not equal") := by
  have hfail : deepMatch (NewDefaultJSONMatcher.valueMatcher) (.str "b") (.str "zzz") =
      .fail [] .valuesNotEqual := by
    rw [deepMatch_scalar (NewDefaultJSONMatcher.valueMatcher) (.str "b") (.str "zzz")
      (by rfl) (Or.inl rfl)]
    decide
  have hok : deepMatch (NewDefaultJSONMatcher.valueMatcher) (.str "a") (.str "a") = .ok := by
    rw [deepMatch_scalar (NewDefaultJSONMatcher.valueMatcher) (.str "a") (.str "a")
      (by rfl) (Or.inl rfl)]
    decide
  refine ⟨?_, ?_, ?_⟩
  · have := path_reporting.1 (NewDefaultJSONMatcher.valueMatcher)
      [.str "a"] [.str "a"] (.str "b") (.str "zzz") [] [] [] .valuesNotEqual
      (by decide) rfl ?_ (by decide) hfail
    · simpa using this
    · intro pr hpr
      simp only [List.zip_cons_cons, List.zip_nil_left, List.mem_cons, List.not_mem_nil,
        or_false] at hpr
      rcases hpr with rfl
      exact hok
  · have := path_reporting.2.1 (NewDefaultJSONMatcher.valueMatcher)
      [] "k" (.str "b") (.str "zzz") [] [("k", .str "zzz")] [] .valuesNotEqual
      (fun kv hkv => absurd hkv (List.not_mem_nil _)) (by decide) (by simp [lookupKey]) hfail
    simpa using this
  · have hd : deepMatch (NewChainMatcher []) (.num 1) (.num 2) =
        .fail [] .valuesNotEqual := by
      rw [deepMatch_scalar (NewChainMatcher []) (.num 1) (.num 2) (by rfl) (Or.inl rfl)]
      decide
    have := path_reporting.2.2.1 (NewJSONMatcher (NewChainMatcher []))
      (.num 1) (.num 2) [] .valuesNotEqual hd
    simpa [MatchErr.message] using this

theorem Json.allSub_self (p : Json → Bool) (v : Json) (h : Json.allSub p v = true) :
    p v = true := by
  cases v with
  | arr xs =>
    simp only [Json.allSub, Bool.and_eq_true] at h
    exact h.1
  | obj kvs =>
    simp only [Json.allSub, Bool.and_eq_true] at h
    exact h.1
  | null => exact h
  | bool b => exact h
  | num q => exact h
  | str s => exact h

theorem Json.allSub_arr_elems (p : Json → Bool) (xs : List Json)
    (h : Json.allSub p (.arr xs) = true) : ∀ v ∈ xs, Json.allSub p v = true := by
  have h₂ : Json.allSubList p xs = true := by
    simp [Json.allSub] at h
    exact h.2
  clear h
  induction xs with
  | nil => intro v hv; exact absurd hv (List.not_mem_nil v)
  | cons x rest ih =>
    simp [Json.allSubList] at h₂
    intro v hv
    rcases List.mem_cons.1 hv with rfl | hv₂
    · exact h₂.1
    · exact ih h₂.2 v hv₂

theorem Json.allSub_obj_fields (p : Json → Bool) (kvs : List (String × Json))
    (h : Json.allSub p (.obj kvs) = true) : ∀ kv ∈ kvs, Json.allSub p kv.2 = true := by
  have h₂ : Json.allSubFields p kvs = true := by
    simp [Json.allSub] at h
    exact h.2
  clear h
  induction kvs with
  | nil => intro kv hkv; exact absurd hkv (List.not_mem_nil kv)
  | cons kv₁ rest ih =>
    obtain ⟨k₁, v₁⟩ := kv₁
    simp [Json.allSubFields] at h₂
    intro kv hkv
    rcases List.mem_cons.1 hkv with rfl | hkv₂
    · exact h₂.1
    · exact ih h₂.2 kv hkv₂

theorem Json.wf_arr_elems (xs : List Json) (h : Json.wf (.arr xs) = true) :
    ∀ v ∈ xs, Json.wf v = true := by
  have h₂ : Json.wfList xs = true := by simpa [Json.wf] using h
  clear h
  induction xs with
  | nil => intro v hv; exact absurd hv (List.not_mem_nil v)
  | cons x rest ih =>
    simp [Json.wfList] at h₂
    intro v hv
    rcases List.mem_cons.1 hv with rfl | hv₂
    · exact h₂.1
    · exact ih h₂.2 v hv₂

theorem Json.wf_obj_fields (kvs : List (String × Json)) (h : Json.wf (.obj kvs) = true) :
    (∀ kv ∈ kvs, Json.wf kv.2 = true) ∧ (kvs.map Prod.fst).Nodup := by
  simp only [Json.wf, Bool.and_eq_true] at h
  obtain ⟨h₁, h₂⟩ := h
  refine ⟨?_, by simpa using h₂⟩
  clear h₂
  induction kvs with
  | nil => intro kv hkv; exact absurd hkv (List.not_mem_nil kv)
  | cons kv₁ rest ih =>
    obtain ⟨k₁, v₁⟩ := kv₁
    simp [Json.wfFields] at h₁
    intro kv hkv
    rcases List.mem_cons.1 hkv with rfl | hkv₂
    · exact h₁.1
    · exact ih h₁.2 kv hkv₂

theorem lookupKey_self :
    ∀ (kvs : List (String × Json)) (k : String) (v : Json),
      (kvs.map Prod.fst).Nodup → (k, v) ∈ kvs → lookupKey k kvs = some v := by
  intro kvs
  induction kvs with
  | nil => intro k v _ h; exact absurd h (List.not_mem_nil _)
  | cons kv₁ rest ih =>
    obtain ⟨k₁, v₁⟩ := kv₁
    intro k v hnd hmem
    simp only [List.map_cons, List.nodup_cons] at hnd
    rcases List.mem_cons.1 hmem with heq | hmem₂
    · injection heq with e1 e2
      subst e1
      subst e2
      rw [lookupKey, if_pos rfl]
    · have hne : k ≠ k₁ := by
        intro hkk
        subst hkk
        exact hnd.1 (List.mem_map.2 ⟨(k, v), hmem₂, rfl⟩)
      rw [lookupKey, if_neg hne]
      exact ih k v hnd.2 hmem₂

theorem arrLoop_refl (m : ValueMatcher) :
    ∀ (xs : List Json) (i : Nat),
      (∀ v ∈ xs, isUnbounded v = false → deepMatch m v v = .ok) →
      arrLoop m xs xs i = .finished ∨ arrLoop m xs xs i = .unbounded := by
  intro xs
  induction xs with
  | nil =>
    intro i _
    left
    rw [arrLoop.eq_def]
  | cons v rest ih =>
    intro i H
    by_cases hu : isUnbounded v
    · right
      rw [arrLoop.eq_def]
      simp [hu]
    · have hd := H v (by simp) (by simpa using hu)
      have hstep : arrLoop m (v :: rest) (v :: rest) i = arrLoop m rest rest (i + 1) := by
        rw [arrLoop.eq_def]
        simp only [hu, Bool.false_eq_true, if_false, hd]
      rw [hstep]
      exact ih (i + 1) fun w hw hu₂ => H w (by simp [hw]) hu₂

theorem mapLoop_refl (m : ValueMatcher) (kvs : List (String × Json)) :
    ∀ (rest : List (String × Json)) (unb : Bool),
      (∀ kv ∈ rest, kv.1 ≠ patternUnbounded →
          lookupKey kv.1 kvs = some kv.2 ∧ deepMatch m kv.2 kv.2 = .ok) →
      ∃ unb₂, mapLoop m kvs rest unb = .finished unb₂ := by
  intro rest
  induction rest with
  | nil =>
    intro unb _
    exact ⟨unb, by rw [mapLoop.eq_def]⟩
  | cons kv rest₂ ih =>
    obtain ⟨k, v₁⟩ := kv
    intro unb H
    by_cases hu : isUnbounded (.str k)
    · obtain ⟨unb₂, hm⟩ := ih true fun kv₂ h₂ => H kv₂ (by simp [h₂])
      refine ⟨unb₂, ?_⟩
      rw [mapLoop.eq_def]
      simp only [hu, if_true]
      exact hm
    · have hk : k ≠ patternUnbounded := by simpa [isUnbounded, isPattern] using hu
      obtain ⟨hl, hd⟩ := H (k, v₁) (by simp) hk
      have hl₂ : lookupKey k kvs = some v₁ := hl
      have hd₂ : deepMatch m v₁ v₁ = .ok := hd
      obtain ⟨unb₂, hm⟩ := ih unb fun kv₂ h₂ => H kv₂ (by simp [h₂])
      refine ⟨unb₂, ?_⟩
      rw [mapLoop.eq_def]
      simp only [hu, Bool.false_eq_true, if_false, hl₂, hd₂]
      exact hm

/-- C8: matching a well-formed decoded value against itself succeeds —
including values containing the unbounded sentinel as an array element or
object key — provided every nested value the configured matcher recognizes
passes its own verification when given itself as the actual value (the
carve-out for actual-value-dependent matchers such as UUID or email, whose
`Match` rejects the literal placeholder string). -/
theorem match_reflexivity (m : ValueMatcher) (v : Json)
    (hwf : Json.wf v = true)
    (hsub : Json.allSub (fun s => !m.CanMatch s || (m.Match s s).2.isNone) v = true) :
    deepMatch m v v = .ok := by
  have main : ∀ (n : Nat) (v : Json), sizeOf v ≤ n → Json.wf v = true →
      Json.allSub (fun s => !m.CanMatch s || (m.Match s s).2.isNone) v = true →
      deepMatch m v v = .ok := by
    intro n
    induction n with
    | zero =>
      intro v hv
      exfalso
      cases v <;> simp at hv
    | succ n ihn =>
      intro v hv hwf hsub
      have hscalar : v.isScalar = true → deepMatch m v v = .ok := by
        intro hs
        rw [deepMatch_scalar m v v hs (Or.inl rfl)]
        by_cases hc : m.CanMatch v
        · have hp := Json.allSub_self _ v hsub
          simp only [hc, Bool.not_true, Bool.false_or] at hp
          rw [matchValue, if_pos hc, Option.isNone_iff_eq_none.1 hp]
        · rw [matchValue, if_neg hc, if_pos (Json.beq_refl v)]
      cases v with
      | null => exact hscalar rfl
      | bool b => exact hscalar rfl
      | num q => exact hscalar rfl
      | str s => exact hscalar rfl
      | arr xs =>
        rw [deepMatch_arr]
        have hElems : ∀ w ∈ xs, isUnbounded w = false → deepMatch m w w = .ok := by
          intro w hw _
          have h₁ : sizeOf w < sizeOf xs := List.sizeOf_lt_of_mem hw
          have h₂ : sizeOf (Json.arr xs) = 1 + sizeOf xs := by simp
          exact ihn w (by omega) (Json.wf_arr_elems xs hwf w hw)
            (Json.allSub_arr_elems _ xs hsub w hw)
        rcases arrLoop_refl m xs 0 hElems with hfin | hunb
        · rw [deepMatchArray.eq_def, hfin]
          simp
        · rw [deepMatchArray.eq_def, hunb]
      | obj kvs =>
        rw [deepMatch_obj]
        obtain ⟨hvals, hnd⟩ := Json.wf_obj_fields kvs hwf
        have hFields : ∀ kv ∈ kvs, kv.1 ≠ patternUnbounded →
            lookupKey kv.1 kvs = some kv.2 ∧ deepMatch m kv.2 kv.2 = .ok := by
          intro kv hkv _
          refine ⟨lookupKey_self kvs kv.1 kv.2 hnd (by simpa using hkv), ?_⟩
          have h₁ : sizeOf kv < sizeOf kvs := List.sizeOf_lt_of_mem hkv
          have h₂ : sizeOf (Json.obj kvs) = 1 + sizeOf kvs := by simp
          obtain ⟨k, w⟩ := kv
          have h₃ : sizeOf w < sizeOf (k, w) := by simp
          exact ihn w (by omega) (hvals (k, w) hkv)
            (Json.allSub_obj_fields _ kvs hsub (k, w) hkv)
        obtain ⟨unb₂, hm⟩ := mapLoop_refl m kvs kvs false hFields
        rw [deepMatchMap_finished m kvs kvs unb₂ hm]
        simp
  exact main (sizeOf v) v le_rfl hwf hsub

/-- Witness for C8 at a concrete value containing the unbounded sentinel as
an array element and as an object key, plus a non-value-dependent placeholder
(`"@string@"`), matched against itself with the default chain. -/
theorem match_reflexivity_witness :
    deepMatch (NewDefaultJSONMatcher.valueMatcher)
      (.obj [("a", .num 1), (patternUnbounded, .str ""), ("s", .str "@string@"),
        ("xs", .arr [.num 1, .str patternUnbounded])])
      (.obj [("a", .num 1), (patternUnbounded, .str ""), ("s", .str "@string@"),
        ("xs", .arr [.num 1, .str patternUnbounded])]) = .ok :=
  match_reflexivity (NewDefaultJSONMatcher.valueMatcher) _ (by decide) (by decide)

theorem matchValue_ne_crash (m : ValueMatcher) (e a : Json) : matchValue m e a ≠ .crash := by
  by_cases hc : m.CanMatch e
  · rw [matchValue, if_pos hc]
    cases h₂ : (m.Match e a).2 <;> simp
  · rw [matchValue, if_neg hc]
    by_cases hb : Json.beq e a <;> simp [hb]

theorem arrLoop_no_crash (m : ValueMatcher) :
    ∀ (xs ys : List Json) (i : Nat),
      (∀ v ∈ xs, ∀ (y : Json), deepMatch m v y ≠ .crash) →
      arrLoop m xs ys i ≠ .crashed := by
  intro xs
  induction xs with
  | nil =>
    intro ys i _ h
    rw [arrLoop.eq_def] at h
    cases h
  | cons v rest ih =>
    intro ys i H h
    rw [arrLoop.eq_def] at h
    by_cases hu : isUnbounded v
    · simp [hu] at h
    · simp only [hu, Bool.false_eq_true, if_false] at h
      split at h
      · cases h
      · split at h
        · exact ih _ _ (fun v₂ h₂ y => H v₂ (by simp [h₂]) y) h
        · cases h
        · rename_i hd
          exact H v (by simp) _ hd

theorem mapLoop_no_crash (m : ValueMatcher) :
    ∀ (rest actual : List (String × Json)) (unb : Bool),
      (∀ kv ∈ rest, ∀ (y : Json), deepMatch m kv.2 y ≠ .crash) →
      mapLoop m actual rest unb ≠ .crashed := by
  intro rest
  induction rest with
  | nil =>
    intro actual unb _ h
    rw [mapLoop.eq_def] at h
    cases h
  | cons kv rest₂ ih =>
    obtain ⟨k, v₁⟩ := kv
    intro actual unb H h
    rw [mapLoop.eq_def] at h
    by_cases hu : isUnbounded (.str k)
    · simp only [hu, if_true] at h
      exact ih actual true (fun kv₂ h₂ y => H kv₂ (by simp [h₂]) y) h
    · simp only [hu, Bool.false_eq_true, if_false] at h
      split at h
      · cases h
      · split at h
        · exact ih actual unb (fun kv₂ h₂ y => H kv₂ (by simp [h₂]) y) h
        · cases h
        · rename_i hd
          exact H (k, v₁) (by simp) _ hd

/-- C10: the unchecked casts of `actual` in `deepMatch` are reached only when
the runtime types already agree or the matcher recognized the expected value;
so whenever the configured matcher's `CanMatch` accepts only strings — as
every built-in matcher does via `isPattern` — the engine never panics, on any
pair of inputs; a custom matcher whose `CanMatch` accepts an array-shaped
expected value removes the guarantee, as the concrete `crash` shows. -/
theorem cast_safety :
    (∀ (m : ValueMatcher), (∀ p, m.CanMatch p = true → p.kind = .kstr) →
        ∀ (e a : Json), deepMatch m e a ≠ .crash) ∧
    (∀ p : Json, (NewDefaultJSONMatcher.valueMatcher).CanMatch p = true → p.kind = .kstr) ∧
    (∀ (e a : Json), deepMatch (NewDefaultJSONMatcher.valueMatcher) e a ≠ .crash) ∧
    deepMatch alwaysNilMatcher (.arr []) .null = .crash := by
  have p1 : ∀ (m : ValueMatcher), (∀ p, m.CanMatch p = true → p.kind = .kstr) →
      ∀ (e a : Json), deepMatch m e a ≠ .crash := by
    intro m Hm
    have main : ∀ (n : Nat) (e a : Json), sizeOf e ≤ n → deepMatch m e a ≠ .crash := by
      intro n
      induction n with
      | zero =>
        intro e a hv
        exfalso
        cases e <;> simp at hv
      | succ n ihn =>
        intro e a he
        have hscalar : e.isScalar = true → deepMatch m e a ≠ .crash := by
          intro hs
          by_cases hc : m.CanMatch e
          · rw [deepMatch_scalar m e a hs (Or.inr hc)]
            exact matchValue_ne_crash m e a
          · by_cases hk : e.kind = a.kind
            · rw [deepMatch_scalar m e a hs (Or.inl hk)]
              exact matchValue_ne_crash m e a
            · rw [deepMatch_guard_fail m e a hk (by simpa using hc)]
              simp
        cases e with
        | null => exact hscalar rfl
        | bool b => exact hscalar rfl
        | num q => exact hscalar rfl
        | str s => exact hscalar rfl
        | arr xs =>
          have hsub : ∀ v ∈ xs, ∀ (y : Json), deepMatch m v y ≠ .crash := by
            intro v hv y
            have h₁ : sizeOf v < sizeOf xs := List.sizeOf_lt_of_mem hv
            have h₂ : sizeOf (Json.arr xs) = 1 + sizeOf xs := by simp
            exact ihn v y (by omega)
          by_cases hk : a.kind = .karr
          · obtain ⟨ys, rfl⟩ := kind_eq_karr hk
            rw [deepMatch_arr]
            intro hcr
            rw [deepMatchArray.eq_def] at hcr
            split at hcr
            · cases hcr
            · rename_i hl
              exact arrLoop_no_crash m xs ys 0 hsub hl
            · cases hcr
            · split at hcr <;> cases hcr
          · have hc : m.CanMatch (.arr xs) = false := by
              cases hcc : m.CanMatch (.arr xs)
              · rfl
              · have := Hm _ hcc
                simp [Json.kind] at this
            rw [deepMatch_arr_nonarr m xs a hk, if_neg (by simp [hc])]
            simp
        | obj kvs =>
          have hsub : ∀ kv ∈ kvs, ∀ (y : Json), deepMatch m kv.2 y ≠ .crash := by
            intro kv hkv y
            have h₁ : sizeOf kv < sizeOf kvs := List.sizeOf_lt_of_mem hkv
            have h₂ : sizeOf (Json.obj kvs) = 1 + sizeOf kvs := by simp
            obtain ⟨k, w⟩ := kv
            have h₃ : sizeOf w < sizeOf (k, w) := by simp
            exact ihn w y (by omega)
          by_cases hk : a.kind = .kobj
          · obtain ⟨kvs₂, rfl⟩ := kind_eq_kobj hk
            rw [deepMatch_obj]
            intro hcr
            rw [deepMatchMap.eq_def] at hcr
            split at hcr
            · cases hcr
            · rename_i hl
              exact mapLoop_no_crash m kvs kvs₂ false hsub hl
            · split at hcr <;> cases hcr
          · have hc : m.CanMatch (.obj kvs) = false := by
              cases hcc : m.CanMatch (.obj kvs)
              · rfl
              · have := Hm _ hcc
                simp [Json.kind] at this
            rw [deepMatch_obj_nonobj m kvs a hk, if_neg (by simp [hc])]
            simp
    intro e a
    exact main (sizeOf e) e a le_rfl
  have p2 : ∀ p : Json, (NewDefaultJSONMatcher.valueMatcher).CanMatch p = true →
      p.kind = .kstr := by
    intro p hc
    cases p with
    | str s => rfl
    | null => exact Bool.noConfusion hc
    | bool b => exact Bool.noConfusion hc
    | num q => exact Bool.noConfusion hc
    | arr xs => exact Bool.noConfusion hc
    | obj kvs => exact Bool.noConfusion hc
  refine ⟨p1, p2, fun e a => p1 _ p2 e a, ?_⟩
  rw [deepMatch_arr_nonarr alwaysNilMatcher [] .null (by decide), if_pos (by decide)]

/-- Witness for C10 at concrete inputs: the default chain only recognizes
strings, so the engine cannot panic on an array-against-number pair. -/
theorem cast_safety_witness :
    deepMatch (NewDefaultJSONMatcher.valueMatcher) (.arr [.num 1]) (.num 1) ≠ .crash :=
  cast_safety.1 (NewDefaultJSONMatcher.valueMatcher) cast_safety.2.1 (.arr [.num 1]) (.num 1)

end Gomatch
